import Mathlib

/-!
Verification of the core logic of the whc-bench load-generation tools.

The development shallowly embeds the statistics aggregator, the per-key
interval throttle, the idle-timeout watchdog, the request-sending boundary,
the identifier loader and the broker timestamp heuristic of the Python
sources (`http_stress.py`, `main.py`, `kafka_consumer.py`, `mqtt_client.py`,
`utils.py`).  Wall-clock instants and latencies are modelled as rationals;
fallible operations return `Except`/`Option`.
-/

namespace WhcBench

/-- Result dict returned by `StressTester.send_request`
(`http_stress.py` lines 208-223): key, HTTP status (0 on exception),
success flag, elapsed seconds, optional error message and optional
response text. -/
structure Outcome where
  device_id : String
  status : Nat
  success : Bool
  elapsed : ℚ
  error : Option String := none
  response : Option String := none
  deriving DecidableEq

/-- The `self.stats` accumulator of `StressTester.__init__`
(`http_stress.py` lines 55-61). -/
structure Stats where
  total : Nat
  success : Nat
  failed : Nat
  latencies : List ℚ
  errors : List Outcome
  deriving DecidableEq

/-- The all-zero initial accumulator. -/
def initStats : Stats := ⟨0, 0, 0, [], []⟩

/-- One stats update, as performed under the stats lock by
`StressTester.worker` (`http_stress.py` lines 261-268) and identically by
`StressTester._update_stats_thread_safe` (lines 272-281): increment
`total`, append the latency, and increment `success`, or increment
`failed` and append the whole result to `errors`. -/
def record (s : Stats) (r : Outcome) : Stats :=
  { total := s.total + 1
    latencies := s.latencies ++ [r.elapsed]
    success := if r.success then s.success + 1 else s.success
    failed := if r.success then s.failed else s.failed + 1
    errors := if r.success then s.errors else s.errors ++ [r] }

/-- Model of `KafkaConsumerManager.calculate_percentile` (`kafka_consumer.py`
lines 429-437): return `0.0` on an empty list, otherwise sort the data,
take index `int(len * percentile)`, clamp it to `len - 1` when it reaches
the length, and return the element there.  Python `sorted` is modelled by
`List.insertionSort (· ≤ ·)` and `int` truncation of the non-negative
product by `Int.toNat ∘ Int.floor`. -/
def calculate_percentile (data : List ℚ) (percentile : ℚ) : ℚ :=
  if data = [] then 0
  else
    let sorted_data := List.insertionSort (· ≤ ·) data
    let index := (⌊(sorted_data.length : ℚ) * percentile⌋).toNat
    if sorted_data.length ≤ index then
      sorted_data.getD (sorted_data.length - 1) 0
    else
      sorted_data.getD index 0

/-- Model of `latency_p50` of `MQTTClient.get_stats` (`mqtt_client.py` line 163):
`sorted(latencies)[len(latencies) // 2]`. -/
def mqtt_p50 (latencies : List ℚ) : ℚ :=
  (List.insertionSort (· ≤ ·) latencies).getD (latencies.length / 2) 0

/-- Model of `latency_p95` of `MQTTClient.get_stats` (`mqtt_client.py` line 164):
`sorted(latencies)[int(len(latencies) * 0.95)]`, with no clamp. -/
def mqtt_p95 (latencies : List ℚ) : ℚ :=
  (List.insertionSort (· ≤ ·) latencies).getD
    (⌊(latencies.length : ℚ) * (95 / 100)⌋).toNat 0

/-- Model of `latency_p99` of `MQTTClient.get_stats` (`mqtt_client.py` line 165):
`sorted(latencies)[int(len(latencies) * 0.99)]`, with no clamp. -/
def mqtt_p99 (latencies : List ℚ) : ℚ :=
  (List.insertionSort (· ≤ ·) latencies).getD
    (⌊(latencies.length : ℚ) * (99 / 100)⌋).toNat 0

lemma insertionSort_length (l : List ℚ) :
    (List.insertionSort (· ≤ ·) l).length = l.length :=
  List.length_insertionSort _ l

/-- For a fraction `p < 1` the index `int(n * p)` is below `n`, so the
clamp of `calculate_percentile` never triggers. -/
lemma floor_index_lt (n : ℕ) (hn : 0 < n) (p : ℚ) (_hp0 : 0 ≤ p) (hp1 : p < 1) :
    (⌊(n : ℚ) * p⌋).toNat < n := by
  have hfl : ⌊(n : ℚ) * p⌋ < (n : ℤ) := by
    apply Int.floor_lt.mpr
    push_cast
    have hnq : (0 : ℚ) < (n : ℚ) := by exact_mod_cast hn
    nlinarith
  omega

lemma calculate_percentile_of_index_lt (data : List ℚ) (hne : data ≠ [])
    (p : ℚ) (h : (⌊(data.length : ℚ) * p⌋).toNat < data.length) :
    calculate_percentile data p =
      (List.insertionSort (· ≤ ·) data).getD
        (⌊(data.length : ℚ) * p⌋).toNat 0 := by
  unfold calculate_percentile
  rw [if_neg hne]
  simp only [insertionSort_length]
  rw [if_neg (by omega)]

/-- Claim C1: for every non-empty latency list and percentile among
0.5, 0.9, 0.95, 0.99, the reported percentile is the element of the
sorted list at index `int(n * p)` clamped to `n - 1`; in particular for
`[10, 20, 30, 40, 100]` the p50 is `30` and the p99 is `100`; the
unclamped MQTT variants agree with the clamped rule at p50, p95 and
p99. -/
theorem percentile_floor_clamp_rule (data : List ℚ) (hne : data ≠ []) (p : ℚ)
    (_hp : p = 1/2 ∨ p = 9/10 ∨ p = 95/100 ∨ p = 99/100) :
    calculate_percentile data p =
      (List.insertionSort (· ≤ ·) data).getD
        (min (⌊(data.length : ℚ) * p⌋).toNat (data.length - 1)) 0 ∧
    calculate_percentile [10, 20, 30, 40, 100] (1/2) = 30 ∧
    calculate_percentile [10, 20, 30, 40, 100] (99/100) = 100 ∧
    mqtt_p50 data = calculate_percentile data (1/2) ∧
    mqtt_p95 data = calculate_percentile data (95/100) ∧
    mqtt_p99 data = calculate_percentile data (99/100) := by
  have hn : 0 < data.length := List.length_pos.mpr hne
  have hc50 : calculate_percentile [10, 20, 30, 40, 100] (1/2) = 30 := by
    norm_num [calculate_percentile, List.insertionSort, List.orderedInsert]
    norm_num [Int.toNat]
    exact List.cons_ne_nil _ _
  have hc99 : calculate_percentile [10, 20, 30, 40, 100] (99/100) = 100 := by
    norm_num [calculate_percentile, List.insertionSort, List.orderedInsert]
    norm_num [Int.toNat]
    exact List.cons_ne_nil _ _
  refine ⟨?_, hc50, hc99, ?_, ?_, ?_⟩
  · unfold calculate_percentile
    rw [if_neg hne]
    simp only [insertionSort_length]
    by_cases hle : data.length ≤ (⌊(data.length : ℚ) * p⌋).toNat
    · rw [if_pos hle]
      congr 1
      omega
    · rw [if_neg hle]
      congr 1
      omega
  · have hidx : (⌊(data.length : ℚ) * (1/2 : ℚ)⌋).toNat < data.length :=
      floor_index_lt _ hn _ (by norm_num) (by norm_num)
    rw [calculate_percentile_of_index_lt data hne _ hidx]
    unfold mqtt_p50
    congr 1
    have h2 : ((data.length : ℚ)) * (1/2) = (data.length : ℚ) / ((2 : ℕ) : ℚ) := by
      push_cast; ring
    rw [h2, Int.floor_toNat, Nat.floor_div_eq_div]
  · have hidx : (⌊(data.length : ℚ) * (95/100 : ℚ)⌋).toNat < data.length :=
      floor_index_lt _ hn _ (by norm_num) (by norm_num)
    rw [calculate_percentile_of_index_lt data hne _ hidx]
    rfl
  · have hidx : (⌊(data.length : ℚ) * (99/100 : ℚ)⌋).toNat < data.length :=
      floor_index_lt _ hn _ (by norm_num) (by norm_num)
    rw [calculate_percentile_of_index_lt data hne _ hidx]
    rfl

/-- Witness for C1 at the concrete latency list `[10, 20, 30, 40, 100]`
and `p = 0.5`. -/
theorem percentile_floor_clamp_rule_witness :
    calculate_percentile [10, 20, 30, 40, 100] (1/2) = 30 :=
  (percentile_floor_clamp_rule [10, 20, 30, 40, 100] (List.cons_ne_nil _ _) (1/2)
    (Or.inl rfl)).2.1

/-- Claim C10: `calculate_percentile` on the empty latency list returns
`0.0` for every percentile, so a snapshot before any outcome reports
zero percentiles rather than failing. -/
theorem percentile_empty_zero (p : ℚ) : calculate_percentile [] p = 0 := rfl

/-- Witness for C10 at `p = 0.99`. -/
theorem percentile_empty_zero_witness : calculate_percentile [] (99/100) = 0 :=
  percentile_empty_zero (99/100)

lemma record_total (s : Stats) (r : Outcome) : (record s r).total = s.total + 1 := rfl

lemma record_success_failed (s : Stats) (r : Outcome) :
    (record s r).success + (record s r).failed = s.success + s.failed + 1 := by
  unfold record
  by_cases h : r.success <;> simp [h] <;> omega

lemma record_latencies (s : Stats) (r : Outcome) :
    (record s r).latencies = s.latencies ++ [r.elapsed] := rfl

lemma record_errors_length (s : Stats) (r : Outcome) :
    (record s r).errors.length = s.errors.length + (if r.success then 0 else 1) := by
  unfold record
  by_cases h : r.success <;> simp [h]

lemma record_failed (s : Stats) (r : Outcome) :
    (record s r).failed = s.failed + (if r.success then 0 else 1) := by
  unfold record
  by_cases h : r.success <;> simp [h]

/-- The three data-model invariants hold at every accumulator reachable
from a state that satisfies them. -/
lemma foldl_record_inv (rs : List Outcome) (s : Stats)
    (h1 : s.total = s.success + s.failed)
    (h2 : s.latencies.length ≤ s.total)
    (h3 : s.errors.length = s.failed) :
    (rs.foldl record s).total = (rs.foldl record s).success + (rs.foldl record s).failed ∧
    (rs.foldl record s).latencies.length ≤ (rs.foldl record s).total ∧
    (rs.foldl record s).errors.length = (rs.foldl record s).failed := by
  induction rs generalizing s with
  | nil => exact ⟨h1, h2, h3⟩
  | cons r rs ih =>
    simp only [List.foldl_cons]
    apply ih
    · rw [record_total, record_success_failed, h1]
    · rw [record_total, record_latencies]
      simp only [List.length_append, List.length_cons, List.length_nil]
      omega
    · rw [record_errors_length, record_failed, h3]

/-- Claim C3: folding any sequence of outcomes into the all-zero
accumulator (each outcome incrementing `total`, appending one latency and
incrementing exactly one of `success`/`failed`) keeps
`total = success + failed` and `latencies.length ≤ total`. -/
theorem stats_accumulator_invariant (rs : List Outcome) :
    (rs.foldl record initStats).total =
      (rs.foldl record initStats).success + (rs.foldl record initStats).failed ∧
    (rs.foldl record initStats).latencies.length ≤ (rs.foldl record initStats).total := by
  have h := foldl_record_inv rs initStats rfl (Nat.le_refl 0) rfl
  exact ⟨h.1, h.2.1⟩

/-- Witness for C3 at a concrete two-outcome run. -/
theorem stats_accumulator_invariant_witness :
    (([⟨"d1", 200, true, 1, none, none⟩,
       ⟨"d2", 500, false, 2, none, none⟩] : List Outcome).foldl record initStats).total =
      (([⟨"d1", 200, true, 1, none, none⟩,
         ⟨"d2", 500, false, 2, none, none⟩] : List Outcome).foldl record initStats).success +
      (([⟨"d1", 200, true, 1, none, none⟩,
         ⟨"d2", 500, false, 2, none, none⟩] : List Outcome).foldl record initStats).failed :=
  (stats_accumulator_invariant _).1

/-- The error sample actually reported: `print_stats` prints only
`self.stats["errors"][:10]` (`http_stress.py` line 560). -/
def sampleErrors (s : Stats) : List Outcome := s.errors.take 10

/-- A concrete failed outcome. -/
def failedOutcome : Outcome :=
  { device_id := "d", status := 500, success := false, elapsed := 1,
    error := none, response := none }

/-- A concrete successful outcome. -/
def okOutcome : Outcome :=
  { device_id := "d", status := 200, success := true, elapsed := 1,
    error := none, response := none }

/-- Counterexample to C6 as stated: after recording eleven failed
outcomes the stored `errors` list has length 11, not at most 10 — the
accumulator keeps every failed outcome, only the report truncates. -/
theorem errors_unbounded_counterexample :
    ¬ ((List.replicate 11 failedOutcome).foldl record initStats).errors.length ≤ 10 := by
  decide

/-- Claim C6 (amended): the accumulator appends every failed outcome to
`errors` — its length equals the `failed` count and is unbounded — while
only the reported sample `errors[:10]` is capped at the first 10 failed
outcomes. -/
theorem errors_reported_sample_bounded (rs : List Outcome) :
    ((rs.foldl record initStats).errors.length = (rs.foldl record initStats).failed) ∧
    (sampleErrors (rs.foldl record initStats)).length ≤ 10 := by
  refine ⟨(foldl_record_inv rs initStats rfl (Nat.le_refl 0) rfl).2.2, ?_⟩
  unfold sampleErrors
  simp only [List.length_take]
  omega

/-- Witness for the amended C6 at eleven failed outcomes: the stored list
holds all 11, the reported sample only 10. -/
theorem errors_reported_sample_bounded_witness :
    (((List.replicate 11 failedOutcome).foldl record initStats).errors.length =
      ((List.replicate 11 failedOutcome).foldl record initStats).failed) ∧
    (sampleErrors ((List.replicate 11 failedOutcome).foldl record initStats)).length ≤ 10 :=
  errors_reported_sample_bounded (List.replicate 11 failedOutcome)

lemma foldl_record_latencies (rs : List Outcome) (s : Stats) :
    (rs.foldl record s).latencies = s.latencies ++ rs.map (fun r => r.elapsed) := by
  induction rs generalizing s with
  | nil => simp
  | cons r rs ih =>
    simp only [List.foldl_cons, List.map_cons, ih, record_latencies]
    simp

lemma insertionSort_eq_of_perm {l₁ l₂ : List ℚ} (h : l₁.Perm l₂) :
    List.insertionSort (· ≤ ·) l₁ = List.insertionSort (· ≤ ·) l₂ :=
  List.eq_of_perm_of_sorted
    ((List.perm_insertionSort _ l₁).trans (h.trans (List.perm_insertionSort _ l₂).symm))
    (List.sorted_insertionSort _ l₁)
    (List.sorted_insertionSort _ l₂)

lemma calculate_percentile_perm {l₁ l₂ : List ℚ} (h : l₁.Perm l₂) (p : ℚ) :
    calculate_percentile l₁ p = calculate_percentile l₂ p := by
  unfold calculate_percentile
  rcases eq_or_ne l₁ [] with h1 | h1
  · subst h1
    rw [List.nil_perm] at h
    subst h
    rfl
  · have h2 : l₂ ≠ [] := by
      intro hnil
      exact h1 (List.Perm.eq_nil (hnil ▸ h))
    rw [if_neg h1, if_neg h2, insertionSort_eq_of_perm h]

/-- Claim C9: recording the same multiset of outcomes in any order yields
identical percentiles, because the percentile depends only on the sorted
accumulated latency sequence. -/
theorem percentile_order_independent (rs₁ rs₂ : List Outcome)
    (h : rs₁.Perm rs₂) (p : ℚ) :
    calculate_percentile (rs₁.foldl record initStats).latencies p =
    calculate_percentile (rs₂.foldl record initStats).latencies p := by
  rw [foldl_record_latencies, foldl_record_latencies]
  exact calculate_percentile_perm (List.Perm.append_left _ (h.map _)) p

/-- Witness for C9: swapping two concrete outcomes leaves the p50
unchanged. -/
theorem percentile_order_independent_witness :
    calculate_percentile
      (([okOutcome, failedOutcome] : List Outcome).foldl record initStats).latencies (1/2) =
    calculate_percentile
      (([failedOutcome, okOutcome] : List Outcome).foldl record initStats).latencies (1/2) :=
  percentile_order_independent [okOutcome, failedOutcome] [failedOutcome, okOutcome]
    (List.Perm.swap failedOutcome okOutcome []) (1/2)

/-- Per-key last-dispatch instants: `self.last_request_time`, a
`defaultdict(float)` whose unseen keys read as time zero
(`http_stress.py` line 63). -/
def ThrottleState : Type := String → ℚ

/-- The initial throttle state: no key has ever dispatched. -/
def initThrottle : ThrottleState := fun _ => 0

/-- The sleep duration computed by `StressTester.worker`
(`http_stress.py` lines 237-252, identical in `main.py` lines 136-151):
when `interval > 0` and `loop_index > 0`, `elapsed = now - last` and the
sleep is `interval - elapsed` if `elapsed < interval`, else `0`;
otherwise no wait at all. -/
def throttle_sleep_time (interval : ℚ) (loop_index : ℕ) (last now : ℚ) : ℚ :=
  if 0 < interval ∧ 0 < loop_index then
    let elapsed := now - last
    if elapsed < interval then interval - elapsed else 0
  else 0

/-- The post-invocation update `self.last_request_time[device_id] =
time.time()` performed under the interval lock (`http_stress.py`
lines 257-258). -/
def update_last_request_time (st : ThrottleState) (key : String) (post : ℚ) :
    ThrottleState :=
  fun k => if k = key then post else st k

/-- Claim C2: round 0 never waits; for round > 0 with a positive minimum
interval the worker sleeps exactly `interval - elapsed` when
`elapsed < interval` and `0` when `elapsed ≥ interval`, where
`elapsed = now - lastDispatch[key]`, and afterwards `lastDispatch[key]`
is set to the post-invocation time. -/
theorem throttle_wait_rule (interval : ℚ) (key : String) (st : ThrottleState)
    (now post : ℚ) (r : ℕ) (hI : 0 < interval) :
    throttle_sleep_time interval 0 (st key) now = 0 ∧
    (0 < r → now - st key < interval →
      throttle_sleep_time interval r (st key) now = interval - (now - st key)) ∧
    (0 < r → interval ≤ now - st key →
      throttle_sleep_time interval r (st key) now = 0) ∧
    update_last_request_time st key post key = post ∧
    (∀ k, k ≠ key → update_last_request_time st key post k = st k) := by
  refine ⟨?_, ?_, ?_, ?_, ?_⟩
  · simp [throttle_sleep_time]
  · intro hr hlt
    simp [throttle_sleep_time, hI, hr, hlt]
  · intro hr hge
    simp [throttle_sleep_time, hI, hr, not_lt.mpr hge]
  · simp [update_last_request_time]
  · intro k hk
    simp [update_last_request_time, hk]

/-- Witness for C2 with interval 5, last dispatch at 0 and now 3: the
worker sleeps exactly 2 on round 1 and never on round 0. -/
theorem throttle_wait_rule_witness :
    throttle_sleep_time 5 0 (initThrottle "dev") 3 = 0 ∧
    throttle_sleep_time 5 1 (initThrottle "dev") 3 = 5 - (3 - initThrottle "dev") := by
  have h := throttle_wait_rule 5 "dev" initThrottle 3 7 1 (by norm_num)
  refine ⟨h.1, h.2.1 (by norm_num) ?_⟩
  show (3 : ℚ) - 0 < 5
  norm_num

/-- One poll of `KafkaConsumerManager._timeout_checker`
(`kafka_consumer.py` lines 88-122): with no message ever received the
idle time is counted from `start_consuming_time`, otherwise from
`last_message_time`; the watchdog fires when it reaches
`idle_timeout_seconds`. -/
def watchdog_fires (idle_timeout start : ℚ) (last_msg : Option ℚ) (now : ℚ) : Bool :=
  match last_msg with
  | none => decide (idle_timeout ≤ now - start)
  | some t => decide (idle_timeout ≤ now - t)

/-- The fields of `KafkaConsumerManager` that `stop` touches: the
`running` flag plus a count of how many times the body of `stop` has run
past its idempotence guard. -/
structure ConsumerState where
  running : Bool
  stop_calls : ℕ
  deriving DecidableEq

/-- Model of `KafkaConsumerManager.stop` (`kafka_consumer.py` lines 417-427):
returns immediately when already stopped, otherwise clears `running` and
performs the shutdown work once. -/
def stop (s : ConsumerState) : ConsumerState :=
  if s.running then { running := false, stop_calls := s.stop_calls + 1 } else s

/-- The polling loop of `_timeout_checker` over a trace of observations
`(now, last_message_time)`: while `running`, each poll either fires —
calling `stop` and breaking out of the loop — or continues. -/
def timeout_checker (idle_timeout start : ℚ) (polls : List (ℚ × Option ℚ))
    (s : ConsumerState) : ConsumerState :=
  match polls with
  | [] => s
  | (now, last) :: rest =>
    if s.running then
      if watchdog_fires idle_timeout start last now then stop s
      else timeout_checker idle_timeout start rest s
    else s

lemma timeout_checker_stop_calls (idle_timeout start : ℚ)
    (polls : List (ℚ × Option ℚ)) (s : ConsumerState) :
    (timeout_checker idle_timeout start polls s).stop_calls ≤
      s.stop_calls + (if s.running then 1 else 0) := by
  induction polls generalizing s with
  | nil => simp [timeout_checker]
  | cons poll rest ih =>
    obtain ⟨now, last⟩ := poll
    unfold timeout_checker
    by_cases hr : s.running
    · by_cases hf : watchdog_fires idle_timeout start last now
      · simp [hr, hf, stop]
      · simpa [hr, hf] using ih s
    · simp [hr]

/-- Claim C4: the watchdog fires only after a full idle window has
elapsed since run start (when no outcome was ever processed) or since
the last processed outcome (the more recent reference when one exists);
starting from the running state the polling loop invokes the shutdown
action at most once and stops polling at the firing poll; `stop` is
idempotent. -/
theorem watchdog_fire_bound (idle_timeout start : ℚ)
    (polls : List (ℚ × Option ℚ)) :
    (∀ now, watchdog_fires idle_timeout start none now = true →
      start + idle_timeout ≤ now) ∧
    (∀ now t, start ≤ t →
      watchdog_fires idle_timeout start (some t) now = true →
      max start t + idle_timeout ≤ now) ∧
    (timeout_checker idle_timeout start polls ⟨true, 0⟩).stop_calls ≤ 1 ∧
    (∀ s, stop (stop s) = stop s) ∧
    (∀ now last rest s, s.running = true →
      watchdog_fires idle_timeout start last now = true →
      timeout_checker idle_timeout start ((now, last) :: rest) s = stop s) := by
  refine ⟨?_, ?_, ?_, ?_, ?_⟩
  · intro now h
    have := of_decide_eq_true h
    linarith
  · intro now t hst h
    have := of_decide_eq_true h
    rw [max_eq_right hst]
    linarith
  · simpa using timeout_checker_stop_calls idle_timeout start polls ⟨true, 0⟩
  · intro s
    unfold stop
    by_cases hr : s.running <;> simp [hr]
  · intro now last rest s hr hf
    unfold timeout_checker
    rw [if_pos hr, if_pos hf]

/-- Witness for C4: with idle timeout 2 and start 0, a poll at time 5
after a last message at time 1 fires, and indeed `max 0 1 + 2 ≤ 5`; the
loop on that single poll performs exactly one stop call. -/
theorem watchdog_fire_bound_witness :
    max (0 : ℚ) 1 + 2 ≤ 5 ∧
    (timeout_checker 2 0 [(5, some 1)] ⟨true, 0⟩).stop_calls ≤ 1 := by
  have h := watchdog_fire_bound 2 0 [(5, some 1)]
  exact ⟨h.2.1 5 1 (by norm_num) (by norm_num [watchdog_fires]), h.2.2.1⟩

/-- The behaviour of the underlying network call, the external input to
`send_request`: either an HTTP response with its status, the business
`code` field parsed from the response body (`none` when the body is not
a JSON object carrying `code`), and the body text — or a raised
exception with its message. -/
inductive NetBehavior
  | response (status : ℕ) (code : Option ℤ) (text : String)
  | exc (msg : String)
  deriving DecidableEq

/-- The HTTP status check `200 <= response.status < 300`
(`http_stress.py` line 180). -/
def http_ok (status : ℕ) : Bool := decide (200 ≤ status ∧ status < 300)

/-- Model of `StressTester.send_request` (`http_stress.py` lines 146-223): every
behaviour of the network call is turned into a result dict.  On a
response, success is the HTTP check alone in EMQX mode and the HTTP
check conjoined with business `code == 0` in standard mode; on an
exception the result records failure, status 0, the measured elapsed
time and the error string. -/
def send_request (emqx : Bool) (device_id : String) (net : NetBehavior)
    (elapsed : ℚ) : Outcome :=
  match net with
  | .response status code text =>
    { device_id := device_id
      status := status
      success := if emqx then http_ok status else http_ok status && code == some 0
      elapsed := elapsed
      error := none
      response := some text }
  | .exc msg =>
    { device_id := device_id
      status := 0
      success := false
      elapsed := elapsed
      error := some msg
      response := none }

/-- Claim C5: `send_request` is a total function into `Outcome` — no
behaviour of the network call escapes it.  On an exception it returns
failure with status 0, the measured elapsed time and the error message;
on a response it succeeds exactly when the mode's success condition
holds; in every case the measured elapsed time is recorded. -/
theorem send_request_outcome_boundary (emqx : Bool) (dev : String) (e : ℚ)
    (msg text : String) (status : ℕ) (code : Option ℤ) :
    send_request emqx dev (.exc msg) e =
      { device_id := dev, status := 0, success := false, elapsed := e,
        error := some msg, response := none } ∧
    ((send_request true dev (.response status code text) e).success = true ↔
      200 ≤ status ∧ status < 300) ∧
    ((send_request false dev (.response status code text) e).success = true ↔
      (200 ≤ status ∧ status < 300) ∧ code = some 0) ∧
    (∀ net, (send_request emqx dev net e).elapsed = e) := by
  refine ⟨rfl, ?_, ?_, ?_⟩
  · simp [send_request, http_ok]
  · simp [send_request, http_ok, and_assoc]
  · intro net
    cases net <;> rfl

/-- Witness for C5: a standard-mode 200 response with business code 0 is
a success, evaluated concretely through the theorem. -/
theorem send_request_outcome_boundary_witness :
    (send_request false "d" (.response 200 (some 0) "ok") 1).success = true :=
  (send_request_outcome_boundary false "d" 1 "" "ok" 200 (some 0)).2.2.1.mpr
    ⟨⟨by norm_num, by norm_num⟩, rfl⟩

/-- The ways `load_device_ids` can fail (`utils.py` lines 11-53):
`fileNotFound` is the `FileNotFoundError` for a missing file, and the
other two are the `ValueError`s for an empty id list and for a list
shorter than the requested count. -/
inductive LoadError
  | fileNotFound
  | noDeviceIds
  | notEnough (found needed : ℕ)
  deriving DecidableEq

/-- Model of `load_device_ids` (`utils.py` lines 11-53).  The file system is
shallowly embedded as `Option (List String)`: `none` when the path does
not exist, otherwise the parsed column values in row order.  The source
first checks existence, then rejects an empty list, then — when a count
is requested — rejects a list shorter than the count and otherwise keeps
only the first `device_count` values. -/
def load_device_ids (file : Option (List String)) (device_count : Option ℕ) :
    Except LoadError (List String) :=
  match file with
  | none => .error .fileNotFound
  | some device_ids =>
    if device_ids = [] then .error .noDeviceIds
    else
      match device_count with
      | none => .ok device_ids
      | some n =>
        if device_ids.length < n then .error (.notEnough device_ids.length n)
        else .ok (device_ids.take n)

/-- The dispatch units the driver enqueues (`http_stress.py`
lines 284-337): it loads the ids first and only then enqueues
`(device_id, loop_index)` pairs, so a load failure produces no unit at
all. -/
def run_dispatch_units (file : Option (List String)) (device_count : Option ℕ)
    (loop_count : ℕ) : List (String × ℕ) :=
  match load_device_ids file device_count with
  | .error _ => []
  | .ok ids => (List.range loop_count).flatMap fun li => ids.map fun d => (d, li)

/-- Claim C7: on an existing file with rows `[x1..xm]` and requested
count `N`, `load_device_ids` returns exactly the first `N` values when
`m ≥ N` and errors when `m < N`; with no requested count it returns all
values; a missing file gives `FileNotFoundError` and an empty parsed
list gives `ValueError`; and any load failure yields no dispatch unit. -/
theorem load_device_ids_spec (rows : List String) (n : ℕ) (hne : rows ≠ []) :
    (n ≤ rows.length →
      load_device_ids (some rows) (some n) = .ok (rows.take n)) ∧
    (rows.length < n →
      load_device_ids (some rows) (some n) = .error (.notEnough rows.length n)) ∧
    load_device_ids (some rows) none = .ok rows ∧
    (∀ dc, load_device_ids none dc = .error .fileNotFound) ∧
    (∀ dc, load_device_ids (some []) dc = .error .noDeviceIds) ∧
    (∀ file dc lc e, load_device_ids file dc = .error e →
      run_dispatch_units file dc lc = []) := by
  refine ⟨?_, ?_, ?_, ?_, ?_, ?_⟩
  · intro hle
    simp [load_device_ids, hne, not_lt.mpr hle]
  · intro hlt
    simp [load_device_ids, hne, hlt]
  · simp [load_device_ids, hne]
  · intro dc
    rfl
  · intro dc
    rfl
  · intro file dc lc e h
    unfold run_dispatch_units
    rw [h]

/-- Witness for C7 on the concrete file `["a", "b", "c"]` with requested
count 2. -/
theorem load_device_ids_spec_witness :
    load_device_ids (some ["a", "b", "c"]) (some 2) = .ok ["a", "b"] :=
  (load_device_ids_spec ["a", "b", "c"] 2 (List.cons_ne_nil _ _)).1 (by norm_num)

/-- The magnitude heuristic of `KafkaConsumerManager.process_message`
(`kafka_consumer.py` lines 210-214): a numeric payload timestamp above
`1e12` is taken as nanoseconds and divided by `1_000_000`, otherwise it
is already milliseconds. -/
def payload_timestamp_ms (ts : ℚ) : ℚ :=
  if ts > 10 ^ 12 then ts / 1000000 else ts

/-- The message-timestamp selection of `process_message`
(`kafka_consumer.py` lines 198-216): a truthy (non-zero, present) native
Kafka timestamp is used as is; otherwise the payload timestamp, when one
was parsed, goes through the magnitude heuristic. -/
def message_timestamp_ms (kafka_ts : Option ℚ) (payload_ts : Option ℚ) :
    Option ℚ :=
  match kafka_ts with
  | some t =>
    if t = 0 then payload_ts.map payload_timestamp_ms
    else some t
  | none => payload_ts.map payload_timestamp_ms

/-- Claim C8: for a numeric payload timestamp `ts` of a message with no
native timestamp, the consumer reports `ts / 1_000_000` milliseconds
when `ts > 1e12` and `ts` unchanged otherwise. -/
theorem payload_timestamp_heuristic (ts : ℚ) :
    (10 ^ 12 < ts →
      message_timestamp_ms none (some ts) = some (ts / 1000000)) ∧
    (ts ≤ 10 ^ 12 → message_timestamp_ms none (some ts) = some ts) := by
  constructor
  · intro h
    simp [message_timestamp_ms, payload_timestamp_ms, h]
  · intro h
    simp [message_timestamp_ms, payload_timestamp_ms, not_lt.mpr h]

/-- Witness for C8: a nanosecond-looking timestamp `2e12` is rescaled to
`2e6` milliseconds and a millisecond timestamp `5` is kept. -/
theorem payload_timestamp_heuristic_witness :
    message_timestamp_ms none (some (2 * 10 ^ 12)) = some (2 * 10 ^ 12 / 1000000) ∧
    message_timestamp_ms none (some 5) = some 5 :=
  ⟨(payload_timestamp_heuristic (2 * 10 ^ 12)).1 (by norm_num),
   (payload_timestamp_heuristic 5).2 (by norm_num)⟩

end WhcBench
